import Mathlib

/-!
Shallow embedding of the pyjs8call session engine (js8call.py, txmonitor.py,
windowmonitor.py) together with proofs about its state store, the watch
correlator, the transmit dispatch loop, the transmit status tracker, the
spot store and the window predictor.

Time is modelled by the rationals.  The message and spot record classes are
not among the provided sources; their fields, status values and dedup
equality are modelled from the specification and marked as such in the
doc comments below.
-/

namespace Pyjs8call

/-- Modelled from the spec: lifecycle status of a protocol message
(the message module is absent from the sources; the spec lists
CREATED, QUEUED, SENDING, SENT, FAILED, RECEIVED). -/
inductive MsgStatus where
  | created
  | queued
  | sending
  | sent
  | failed
  | received
  deriving DecidableEq

/-- A value held by a state store entry.  Payload shapes whose structure the
engine never inspects (inbox message lists, call and band activity tables)
are abstracted to lists of strings. -/
inductive StateVal where
  | vStr (s : String)
  | vBool (b : Bool)
  | vNum (q : ℚ)
  | vInbox (l : List String)
  | vActivity (l : List String)
  deriving DecidableEq

namespace Message

/-- Modelled from the spec: dotted message type tags (the message module is
absent from the sources; the exact strings never matter to the claims, only
that distinct tags differ). -/
def INBOX_MESSAGES : String := "INBOX.MESSAGES"

def RX_SPOT : String := "RX.SPOT"

def RX_DIRECTED : String := "RX.DIRECTED"

def RIG_FREQ : String := "RIG.FREQ"

def RIG_PTT : String := "RIG.PTT"

def STATION_STATUS : String := "STATION.STATUS"

def STATION_CALLSIGN : String := "STATION.CALLSIGN"

def STATION_GRID : String := "STATION.GRID"

def STATION_INFO : String := "STATION.INFO"

def MODE_SPEED : String := "MODE.SPEED"

def TX_TEXT : String := "TX.TEXT"

def RX_TEXT : String := "RX.TEXT"

def RX_SELECTED_CALL : String := "RX.SELECTED_CALL"

def RX_CALL_ACTIVITY : String := "RX.CALL_ACTIVITY"

def RX_BAND_ACTIVITY : String := "RX.BAND_ACTIVITY"

def RX_ACTIVITY : String := "RX.ACTIVITY"

def TX_FRAME : String := "TX.FRAME"

def TX_SEND_MESSAGE : String := "TX.SEND_MESSAGE"

end Message

/-- Protocol message as used by the receive path and the transmit queue
(fields per the spec message model: type tag, optional value, derived
command, origin and destination, numeric rig fields, structured payloads). -/
structure Msg where
  type : String
  value : Option String
  cmd : Option String
  origin : Option String
  destination : Option String
  dial : Option ℚ
  freq : Option ℚ
  offset : Option ℚ
  speed : Option ℚ
  messages : List String
  call_activity : List String
  band_activity : List String
  deriving DecidableEq

/-- A message carrying only a type tag, every other field empty. -/
def Msg.ofType (t : String) : Msg :=
  ⟨t, none, none, none, none, none, none, none, none, [], [], []⟩

/-- The fixed set of state variable names held by the state store
(js8call.py lines 88 to 103). -/
def stateKeys : List String :=
  ["ptt", "dial", "freq", "offset", "callsign", "speed", "grid", "info",
   "rx_text", "tx_text", "inbox", "call_activity", "band_activity",
   "selected_call"]

/-- The state store: a mapping from state variable names to their last
known value, none meaning unknown. -/
def Store : Type := String → Option StateVal

/-- Read a state store entry. -/
def Store.get (st : Store) (k : String) : Option StateVal := st k

/-- Write a state store entry. -/
def Store.set (st : Store) (k : String) (v : Option StateVal) : Store :=
  fun x => if x = k then v else st x

/-- The initial state store: every variable unknown (js8call.py lines
88 to 103, every entry initialized to None). -/
def Store.init : Store := fun _ => none

/-- The watch timeout in seconds (js8call.py line 75). -/
def watch_timeout : ℚ := 3

/-- JS8Call.watch (js8call.py lines 178 to 214).  The polling loop is
modelled by the resp parameter: some (t, v) when the receive path first
writes the non-None value v to the watched entry t seconds after the watch
begins, none when no such write lands during the call.  The write is
observed by the polling loop exactly when it lands before the timeout
elapses.  Returns the value handed back to the caller together with the
state store at the moment the call returns. -/
def watch (item : String) (st : Store) (resp : Option (ℚ × StateVal)) :
    Option StateVal × Store :=
  if item ∈ stateKeys then
    let last := st.get item
    let st1 := st.set item none
    let st2 :=
      match resp with
      | some (t, v) => if t < watch_timeout then st1.set item (some v) else st1
      | none => st1
    let st3 := if st2.get item = none then st2.set item last else st2
    (st3.get item, st3)
  else (none, st)

/-- State store update performed by JS8Call._process_message
(js8call.py lines 376 to 482).  The watching parameter mirrors the watch
flag of the session; the source never consults it on the receive path,
which the unused parameter makes visible.  The spot handling performed by
the same function touches only the spot store and is modelled separately
by spotOp below. -/
def processMessage (watching : Option String) (msg : Msg) (st : Store) :
    Store :=
  if msg.type = Message.INBOX_MESSAGES then
    st.set "inbox" (some (StateVal.vInbox msg.messages))
  else if msg.type = Message.RIG_FREQ then
    ((st.set "dial" (msg.dial.map StateVal.vNum)).set
      "freq" (msg.freq.map StateVal.vNum)).set
      "offset" (msg.offset.map StateVal.vNum)
  else if msg.type = Message.RIG_PTT then
    st.set "ptt" (some (StateVal.vBool (msg.value = some "on")))
  else if msg.type = Message.STATION_STATUS then
    (((st.set "dial" (msg.dial.map StateVal.vNum)).set
      "freq" (msg.freq.map StateVal.vNum)).set
      "offset" (msg.offset.map StateVal.vNum)).set
      "speed" (msg.speed.map StateVal.vNum)
  else if msg.type = Message.STATION_CALLSIGN then
    st.set "callsign" (msg.value.map StateVal.vStr)
  else if msg.type = Message.STATION_GRID then
    st.set "grid" (msg.value.map StateVal.vStr)
  else if msg.type = Message.STATION_INFO then
    st.set "info" (msg.value.map StateVal.vStr)
  else if msg.type = Message.MODE_SPEED then
    st.set "speed" (msg.speed.map StateVal.vNum)
  else if msg.type = Message.TX_TEXT then
    st.set "tx_text" (msg.value.map StateVal.vStr)
  else if msg.type = Message.RX_TEXT then
    st.set "rx_text" (msg.value.map StateVal.vStr)
  else if msg.type = Message.RX_SELECTED_CALL then
    st.set "selected_call" (msg.value.map StateVal.vStr)
  else if msg.type = Message.RX_CALL_ACTIVITY then
    st.set "call_activity" (some (StateVal.vActivity msg.call_activity))
  else if msg.type = Message.RX_BAND_ACTIVITY then
    st.set "band_activity" (some (StateVal.vActivity msg.band_activity))
  else st

/-- Refresh of the transmission-in-progress flags at the top of each pass
of the transmit thread loop (js8call.py lines 266 to 277): when no watch of
tx_text is active and the tx_text entry is known, the tx_text flag is set
from whether the field text is non-blank, and a non-blank field also clears
the force flag.  The tx_text entry always holds a string value when known.
Returns the updated pair (tx_text flag, force_tx_text flag). -/
def txFlagRefresh (watching : Option String) (txTextState : Option StateVal)
    (tx_text force_tx_text : Bool) : Bool × Bool :=
  if watching ≠ some "tx_text" ∧ txTextState ≠ none then
    match txTextState with
    | some (StateVal.vStr s) =>
        if 0 < s.trim.length then (true, false) else (false, force_tx_text)
    | _ => (tx_text, force_tx_text)
  else (tx_text, force_tx_text)

/-- One pass of the transmit dispatch loop over the queue (js8call.py lines
279 to 307): returns the messages sent in send order, the remaining queue
in order, and the updated force_tx_text flag.  A message of the
send-message kind is held while tx_text or force_tx_text is set; sending a
send-message sets force_tx_text for the rest of the pass. -/
def txPass (tx_text force_tx_text : Bool) :
    List Msg → List Msg × List Msg × Bool
  | [] => ([], [], force_tx_text)
  | msg :: rest =>
    if msg.type = Message.TX_SEND_MESSAGE ∧ (tx_text ∨ force_tx_text) then
      let r := txPass tx_text force_tx_text rest
      (r.1, msg :: r.2.1, r.2.2)
    else
      let force2 :=
        if msg.type = Message.TX_SEND_MESSAGE then true else force_tx_text
      let r := txPass tx_text force2 rest
      (msg :: r.1, r.2.1, r.2.2)

theorem Store.get_set_self (st : Store) (k : String) (v : Option StateVal) :
    (st.set k v).get k = v := by
  simp [Store.get, Store.set]

/-- Behaviour of watch when no response lands before the timeout: the
previously recorded value is restored and handed back. -/
theorem watch_unresponsive_aux (item : String) (st : Store)
    (resp : Option (ℚ × StateVal)) (hk : item ∈ stateKeys)
    (hresp : ∀ t v, resp = some (t, v) → watch_timeout ≤ t) :
    (watch item st resp).1 = st.get item ∧
      ((watch item st resp).2).get item = st.get item := by
  cases resp with
  | none => simp [watch, hk, Store.get, Store.set]
  | some p =>
      obtain ⟨t, v⟩ := p
      have ht : ¬ t < watch_timeout := not_lt.mpr (hresp t v rfl)
      simp [watch, hk, ht, Store.get, Store.set]

/-- Behaviour of watch when a response lands before the timeout: the new
non-sentinel value is stored and handed back. -/
theorem watch_responsive_aux (item : String) (st : Store) (t : ℚ)
    (v : StateVal) (hk : item ∈ stateKeys) (ht : t < watch_timeout) :
    (watch item st (some (t, v))).1 = some v ∧
      ((watch item st (some (t, v))).2).get item = some v := by
  simp [watch, hk, ht, Store.get, Store.set]

/-- C1: for every state variable name x in the state store, if watch(x) is
called and no response updates x before the 3 second timeout elapses, then
watch(x) returns the value x held immediately before the call, and after
the call the stored value of x equals its pre-call value. -/
theorem watch_timeout_restores (item : String) (st : Store)
    (resp : Option (ℚ × StateVal)) (hk : item ∈ stateKeys)
    (hresp : ∀ t v, resp = some (t, v) → watch_timeout ≤ t) :
    (watch item st resp).1 = st.get item ∧
      ((watch item st resp).2).get item = st.get item :=
  watch_unresponsive_aux item st resp hk hresp

/-- Witness for C1: watch of grid with no prior value and no response
returns None and leaves the stored grid value None. -/
theorem watch_timeout_restores_witness :
    "grid" ∈ stateKeys ∧
      ((watch "grid" Store.init none).1 = Store.init.get "grid" ∧
        ((watch "grid" Store.init none).2).get "grid"
          = Store.init.get "grid") :=
  ⟨by decide, watch_timeout_restores "grid" Store.init none (by decide)
    (fun t v h => by cases h)⟩

/-- Counterexample for C3: a watch of callsign with pre-call value N0CALL
that times out returns the restored previous value, not the sentinel None
as the claim states. -/
theorem watch_timeout_sentinel_cex :
    (watch "callsign"
        (Store.init.set "callsign" (some (StateVal.vStr "N0CALL"))) none).1
        = some (StateVal.vStr "N0CALL") ∧
      (watch "callsign"
        (Store.init.set "callsign" (some (StateVal.vStr "N0CALL"))) none).1
        ≠ none := by
  constructor
  · decide
  · decide

/-- C3 amended: for every watched state variable name, if the 3 second
watch timeout elapses without a response then watch restores the previously
recorded value and returns that restored value (which is the sentinel only
when the previous value was itself the sentinel); if a response arrives
before the timeout, watch returns the new non-sentinel value. -/
theorem watch_timeout_or_response (item : String) (st : Store)
    (resp : Option (ℚ × StateVal)) (hk : item ∈ stateKeys) :
    ((∀ t v, resp = some (t, v) → watch_timeout ≤ t) →
        (watch item st resp).1 = st.get item ∧
          ((watch item st resp).2).get item = st.get item) ∧
      (∀ t v, resp = some (t, v) → t < watch_timeout →
        (watch item st resp).1 = some v ∧
          ((watch item st resp).2).get item = some v) := by
  constructor
  · exact fun hresp => watch_unresponsive_aux item st resp hk hresp
  · intro t v hv ht
    subst hv
    exact watch_responsive_aux item st t v hk ht

/-- Witness for C3 amended: a response arriving after one second updates
the watched grid entry and is returned. -/
theorem watch_timeout_or_response_witness :
    "grid" ∈ stateKeys ∧
      ((watch "grid" Store.init (some (1, StateVal.vStr "FN31"))).1
          = some (StateVal.vStr "FN31") ∧
        ((watch "grid" Store.init (some (1, StateVal.vStr "FN31"))).2).get
            "grid" = some (StateVal.vStr "FN31")) :=
  ⟨by decide,
    (watch_timeout_or_response "grid" Store.init
      (some (1, StateVal.vStr "FN31")) (by decide)).2 1
      (StateVal.vStr "FN31") rfl (by norm_num [watch_timeout])⟩

/-- Counterexample for C2: processing a received TX_TEXT message while
tx_text is being watched does write the tx_text state store entry; the
receive path never consults the watch flag. -/
theorem rx_tx_text_write_cex :
    (processMessage (some "tx_text")
          { Msg.ofType Message.TX_TEXT with value := some "HELLO" }
          Store.init).get "tx_text"
        = some (StateVal.vStr "HELLO") ∧
      (processMessage (some "tx_text")
          { Msg.ofType Message.TX_TEXT with value := some "HELLO" }
          Store.init).get "tx_text"
        ≠ Store.init.get "tx_text" := by
  constructor
  · decide
  · decide

/-- C2 amended: while tx_text is being watched, the transmit dispatch loop
leaves its transmission-in-progress flags unchanged instead of refreshing
them from the tx_text entry; the receive path itself writes the tx_text
entry regardless of the watch flag, so processing a received TX_TEXT
message sets the stored tx_text to the message value even during a watch
of tx_text. -/
theorem tx_text_watch_guard :
    (∀ (txTextState : Option StateVal) (tx f : Bool),
        txFlagRefresh (some "tx_text") txTextState tx f = (tx, f)) ∧
      (∀ (watching : Option String) (msg : Msg) (st : Store),
        msg.type = Message.TX_TEXT →
          (processMessage watching msg st).get "tx_text"
            = msg.value.map StateVal.vStr) := by
  constructor
  · intro s tx f
    simp [txFlagRefresh]
  · intro watching msg st h
    simp only [processMessage, h]
    simp [Message.INBOX_MESSAGES, Message.RIG_FREQ, Message.RIG_PTT,
      Message.STATION_STATUS, Message.STATION_CALLSIGN, Message.STATION_GRID,
      Message.STATION_INFO, Message.MODE_SPEED, Message.TX_TEXT,
      Store.get, Store.set]

/-- Witness for C2 amended: the flags survive a refresh during a watch of
tx_text, and a received TX_TEXT message updates the store during it. -/
theorem tx_text_watch_guard_witness :
    txFlagRefresh (some "tx_text") (some (StateVal.vStr "CQ CQ")) false true
        = (false, true) ∧
      (({ Msg.ofType Message.TX_TEXT with value := some "HI" } : Msg).type
          = Message.TX_TEXT ∧
        (processMessage (some "tx_text")
            { Msg.ofType Message.TX_TEXT with value := some "HI" }
            Store.init).get "tx_text"
          = ((some "HI" : Option String)).map StateVal.vStr) :=
  ⟨tx_text_watch_guard.1 (some (StateVal.vStr "CQ CQ")) false true,
    rfl, tx_text_watch_guard.2 (some "tx_text")
      { Msg.ofType Message.TX_TEXT with value := some "HI" } Store.init rfl⟩

theorem txPass_sent_of_tx_text (force : Bool) (q : List Msg) :
    (txPass true force q).1
        = q.filter (fun m => !decide (m.type = Message.TX_SEND_MESSAGE)) ∧
      (txPass true force q).2.1
        = q.filter (fun m => decide (m.type = Message.TX_SEND_MESSAGE)) := by
  induction q generalizing force with
  | nil => simp [txPass]
  | cons m rest ih =>
    by_cases hm : m.type = Message.TX_SEND_MESSAGE
    · simp [txPass, hm, (ih force).1, (ih force).2]
    · simp [txPass, hm, (ih force).1, (ih force).2]

theorem txPass_nonsend_sent (tx : Bool) (m : Msg)
    (hm : m.type ≠ Message.TX_SEND_MESSAGE) :
    ∀ (force : Bool) (q : List Msg), m ∈ q → m ∈ (txPass tx force q).1 := by
  intro force q
  induction q generalizing force with
  | nil => intro h; cases h
  | cons a rest ih =>
    intro hq
    rcases List.mem_cons.mp hq with h | h
    · subst h
      have : ¬ (m.type = Message.TX_SEND_MESSAGE ∧ (tx ∨ force)) :=
        fun hc => hm hc.1
      simp [txPass, this]
    · by_cases ha : a.type = Message.TX_SEND_MESSAGE ∧ (tx ∨ force)
      · simpa [txPass, ha] using ih force h
      · simp only [txPass, if_neg ha]
        exact List.mem_cons_of_mem _
          (ih (if a.type = Message.TX_SEND_MESSAGE then true else force) h)

theorem txPass_sublist (tx : Bool) :
    ∀ (q : List Msg) (force : Bool),
      List.Sublist (txPass tx force q).1 q ∧
        List.Sublist (txPass tx force q).2.1 q := by
  intro q
  induction q with
  | nil => intro force; simp [txPass]
  | cons a rest ih =>
    intro force
    by_cases ha : a.type = Message.TX_SEND_MESSAGE ∧ (tx ∨ force)
    · simp only [txPass, if_pos ha]
      exact ⟨List.Sublist.cons a (ih force).1,
        List.Sublist.cons₂ a (ih force).2⟩
    · simp only [txPass, if_neg ha]
      refine ⟨List.Sublist.cons₂ a ?_, List.Sublist.cons a ?_⟩
      · exact (ih _).1
      · exact (ih _).2

/-- C4: in every pass of the transmit dispatch loop, while the tx text
state indicates a transmission in progress every queued send-message is
left in the queue unsent and every other message kind is sent; messages
whose preconditions hold are sent in FIFO order (the sent list and the
remaining queue are order-preserving subsequences of the queue), and a held
send-message entry never prevents a later queued message of another kind
from being dispatched. -/
theorem tx_dispatch_holds_sends (force : Bool) (q : List Msg) :
    ((txPass true force q).1
        = q.filter (fun m => !decide (m.type = Message.TX_SEND_MESSAGE)) ∧
      (txPass true force q).2.1
        = q.filter (fun m => decide (m.type = Message.TX_SEND_MESSAGE))) ∧
      (∀ (tx : Bool), ∀ m ∈ q, m.type ≠ Message.TX_SEND_MESSAGE →
        m ∈ (txPass tx force q).1) ∧
      (∀ (tx : Bool), List.Sublist (txPass tx force q).1 q ∧
        List.Sublist (txPass tx force q).2.1 q) :=
  ⟨txPass_sent_of_tx_text force q,
    fun tx m hq hm => txPass_nonsend_sent tx m hm force q hq,
    fun tx => txPass_sublist tx q force⟩

/-- Witness for C4: with a transmission in progress, a queued send-message
ahead of a station query is held while the query is dispatched. -/
theorem tx_dispatch_holds_sends_witness :
    (txPass true false
          [Msg.ofType Message.TX_SEND_MESSAGE,
            Msg.ofType Message.STATION_GRID]).1
        = [Msg.ofType Message.STATION_GRID] ∧
      (txPass true false
          [Msg.ofType Message.TX_SEND_MESSAGE,
            Msg.ofType Message.STATION_GRID]).2.1
        = [Msg.ofType Message.TX_SEND_MESSAGE] :=
  ⟨((tx_dispatch_holds_sends false
      [Msg.ofType Message.TX_SEND_MESSAGE,
        Msg.ofType Message.STATION_GRID]).1.1).trans (by decide),
    ((tx_dispatch_holds_sends false
      [Msg.ofType Message.TX_SEND_MESSAGE,
        Msg.ofType Message.STATION_GRID]).1.2).trans (by decide)⟩

/-- Modelled from the spec: the end of message marker character appended by
the modem to outgoing text (the message module defining it is absent from
the sources; its concrete value never matters to the claims). -/
def EOM : String := "♢"

/-- Python str.strip with an explicit character set: removes any of the
given characters from both ends of the string. -/
def stripChars (chars : List Char) (s : String) : String :=
  let l := s.toList.dropWhile (fun c => decide (c ∈ chars))
  String.mk ((l.reverse.dropWhile (fun c => decide (c ∈ chars))).reverse)

/-- Tx text preprocessing of the monitor cycle (txmonitor.py lines 116 to
119): when the text contains a colon, keep the part after the first colon
and strip spaces and the end of message marker from both ends. -/
def processTxText (s : String) : String :=
  if s.contains ':' then
    stripChars (' ' :: EOM.toList) (((s.splitOn ":").drop 1).headD "")
  else s

/-- A message tracked by the tx monitor: destination, value, the enqueue
timestamp and the lifecycle status.  Tracked messages always carry a
destination and a value string. -/
structure TMsg where
  destination : String
  value : String
  timestamp : ℚ
  status : MsgStatus
  deriving DecidableEq

/-- Per message processing of one tx monitor cycle (txmonitor.py lines 132
to 163): returns the updated message and whether it is dropped from the
tracking queue.  txt is the preprocessed tx field text and max_age the
failure threshold computed for this cycle. -/
def msgStep (now max_age : ℚ) (txt : String) (m : TMsg) : TMsg × Bool :=
  let msg_value := m.destination ++ "  " ++ m.value.trim
  if msg_value = txt ∧ m.status = MsgStatus.queued then
    ({ m with status := MsgStatus.sending }, false)
  else if msg_value ≠ txt ∧ m.status = MsgStatus.sending then
    ({ m with status := MsgStatus.sent }, true)
  else if m.timestamp + max_age < now then
    ({ m with status := MsgStatus.failed }, true)
  else (m, false)

/-- The queue traversal of one tx monitor cycle (txmonitor.py lines 129 to
165): each tracked message is processed once in order and re-appended
unless dropped. -/
def monitorQueue (now max_age : ℚ) (txt : String) : List TMsg → List TMsg
  | [] => []
  | m :: rest =>
    let r := msgStep now max_age txt m
    if r.2 then monitorQueue now max_age txt rest
    else r.1 :: monitorQueue now max_age txt rest

/-- One cycle of the tx monitor thread (txmonitor.py lines 108 to 165).
window is the transmit window duration returned by the duration provider
this cycle; the failure threshold is recomputed from it as window times 30
on every cycle.  When the tx text read yields None the cycle leaves the
queue untouched. -/
def monitorCycle (now window : ℚ) (tx_text : Option String)
    (q : List TMsg) : List TMsg :=
  match tx_text with
  | none => q
  | some raw => monitorQueue now (window * 30) (processTxText raw) q

/-- The parameters of one tx monitor cycle as seen by a tracked message:
the cycle time, the window duration read this cycle and the tx text read. -/
structure Cycle where
  now : ℚ
  window : ℚ
  tx_text : Option String
  deriving DecidableEq

/-- One cycle applied to a single tracked message, mirroring monitorCycle
elementwise. -/
def cycleStep (c : Cycle) (m : TMsg) : TMsg × Bool :=
  match c.tx_text with
  | none => (m, false)
  | some raw => msgStep c.now (c.window * 30) (processTxText raw) m

/-- The sequence of status values a tracked message takes over a run of
monitor cycles: its status at the start, then after each cycle, ending when
the message is dropped from the tracking queue. -/
def msgTrace : List Cycle → TMsg → List MsgStatus
  | [], m => [m.status]
  | c :: cs, m =>
    let r := cycleStep c m
    if r.2 then [m.status, r.1.status]
    else m.status :: msgTrace cs r.1

/-- Case analysis of the per message cycle step: a cycle either starts the
message sending, marks it sent and drops it, marks it failed and drops it,
or leaves it untouched. -/
theorem msgStep_cases (now max_age : ℚ) (txt : String) (m : TMsg) :
    (msgStep now max_age txt m
          = ({ m with status := MsgStatus.sending }, false)
        ∧ m.status = MsgStatus.queued) ∨
      (msgStep now max_age txt m = ({ m with status := MsgStatus.sent }, true)
        ∧ m.status = MsgStatus.sending) ∨
      msgStep now max_age txt m = ({ m with status := MsgStatus.failed }, true) ∨
      msgStep now max_age txt m = (m, false) := by
  unfold msgStep
  dsimp only
  split_ifs with h1 h2 h3
  · exact Or.inl ⟨rfl, h1.2⟩
  · exact Or.inr (Or.inl ⟨rfl, h2.2⟩)
  · exact Or.inr (Or.inr (Or.inl rfl))
  · exact Or.inr (Or.inr (Or.inr rfl))

theorem msgTrace_of_sending (cs : List Cycle) (m : TMsg)
    (hs : m.status = MsgStatus.sending) :
    ∃ b t, msgTrace cs m = List.replicate b MsgStatus.sending ++ t
      ∧ (t = [] ∨ t = [MsgStatus.sent] ∨ t = [MsgStatus.failed]) := by
  induction cs generalizing m with
  | nil =>
    exact ⟨1, [], by simp [msgTrace, hs], Or.inl rfl⟩
  | cons c cs ih =>
    cases hc : c.tx_text with
    | none =>
      obtain ⟨b, t, hb, ht⟩ := ih m hs
      refine ⟨b + 1, t, ?_, ht⟩
      simp [msgTrace, cycleStep, hc, hs, hb, List.replicate_succ]
    | some raw =>
      have hstep := msgStep_cases c.now (c.window * 30) (processTxText raw) m
      rcases hstep with ⟨h, hq⟩ | ⟨h, _⟩ | h | h
      · rw [hq] at hs; cases hs
      · refine ⟨1, [MsgStatus.sent], ?_, Or.inr (Or.inl rfl)⟩
        simp [msgTrace, cycleStep, hc, h, hs]
      · refine ⟨1, [MsgStatus.failed], ?_, Or.inr (Or.inr rfl)⟩
        simp [msgTrace, cycleStep, hc, h, hs]
      · obtain ⟨b, t, hb, ht⟩ := ih m hs
        refine ⟨b + 1, t, ?_, ht⟩
        simp [msgTrace, cycleStep, hc, h, hs, hb, List.replicate_succ]

theorem msgTrace_of_queued (cs : List Cycle) (m : TMsg)
    (hs : m.status = MsgStatus.queued) :
    ∃ a b t, msgTrace cs m
        = List.replicate a MsgStatus.queued
          ++ List.replicate b MsgStatus.sending ++ t
      ∧ (t = [] ∨ t = [MsgStatus.sent] ∨ t = [MsgStatus.failed]) := by
  induction cs generalizing m with
  | nil =>
    exact ⟨1, 0, [], by simp [msgTrace, hs], Or.inl rfl⟩
  | cons c cs ih =>
    cases hc : c.tx_text with
    | none =>
      obtain ⟨a, b, t, hb, ht⟩ := ih m hs
      refine ⟨a + 1, b, t, ?_, ht⟩
      simp [msgTrace, cycleStep, hc, hs, hb, List.replicate_succ]
    | some raw =>
      have hstep := msgStep_cases c.now (c.window * 30) (processTxText raw) m
      rcases hstep with ⟨h, _⟩ | ⟨h, hq⟩ | h | h
      · obtain ⟨b, t, hb, ht⟩ := msgTrace_of_sending cs
          { m with status := MsgStatus.sending } rfl
        refine ⟨1, b, t, ?_, ht⟩
        simp [msgTrace, cycleStep, hc, h, hs, hb]
      · rw [hq] at hs; cases hs
      · refine ⟨1, 0, [MsgStatus.failed], ?_, Or.inr (Or.inr rfl)⟩
        simp [msgTrace, cycleStep, hc, h, hs]
      · obtain ⟨a, b, t, hb, ht⟩ := ih m hs
        refine ⟨a + 1, b, t, ?_, ht⟩
        simp [msgTrace, cycleStep, hc, h, hs, hb, List.replicate_succ]

theorem monitorQueue_no_terminal (now max_age : ℚ) (txt : String)
    (q : List TMsg)
    (hq : ∀ x ∈ q, x.status = MsgStatus.queued ∨ x.status = MsgStatus.sending) :
    ∀ y ∈ monitorQueue now max_age txt q,
      y.status = MsgStatus.queued ∨ y.status = MsgStatus.sending := by
  induction q with
  | nil => intro y hy; cases hy
  | cons m rest ih =>
    intro y hy
    have hm := hq m (List.mem_cons_self m rest)
    have hrest : ∀ x ∈ rest,
        x.status = MsgStatus.queued ∨ x.status = MsgStatus.sending :=
      fun x hx => hq x (List.mem_cons_of_mem m hx)
    have hstep := msgStep_cases now max_age txt m
    rcases hstep with ⟨h, _⟩ | ⟨h, _⟩ | h | h
    · rw [monitorQueue, h] at hy
      simp only [if_neg Bool.false_ne_true] at hy
      rcases List.mem_cons.mp hy with hym | hym
      · subst hym; exact Or.inr rfl
      · exact ih hrest y hym
    · rw [monitorQueue, h] at hy
      simp only [if_pos rfl] at hy
      exact ih hrest y hy
    · rw [monitorQueue, h] at hy
      simp only [if_pos rfl] at hy
      exact ih hrest y hy
    · rw [monitorQueue, h] at hy
      simp only [if_neg Bool.false_ne_true] at hy
      rcases List.mem_cons.mp hy with hym | hym
      · subst hym; exact hm
      · exact ih hrest y hym

/-- C5: the sequence of statuses a tracked message takes over any run of
tracking cycles is some QUEUED entries, then some SENDING entries, then at
most one terminal SENT or FAILED entry, at which point the message is
dropped; and a message in the tracking queue is never in a terminal state
after any cycle, so a terminal message is never updated again. -/
theorem tx_status_monotone :
    (∀ (cs : List Cycle) (m : TMsg), m.status = MsgStatus.queued →
        ∃ a b t, msgTrace cs m
            = List.replicate a MsgStatus.queued
              ++ List.replicate b MsgStatus.sending ++ t
          ∧ (t = [] ∨ t = [MsgStatus.sent] ∨ t = [MsgStatus.failed])) ∧
      (∀ (now w : ℚ) (tx_text : Option String) (q : List TMsg),
        (∀ x ∈ q, x.status = MsgStatus.queued ∨ x.status = MsgStatus.sending) →
        ∀ y ∈ monitorCycle now w tx_text q,
          y.status = MsgStatus.queued ∨ y.status = MsgStatus.sending) := by
  constructor
  · exact msgTrace_of_queued
  · intro now w tx_text q hq y hy
    cases tx_text with
    | none => exact hq y hy
    | some raw =>
      exact monitorQueue_no_terminal now (w * 30) (processTxText raw) q hq y hy

/-- Witness for C5: a queued message whose text appears in the tx field
takes the statuses QUEUED then SENDING over one cycle. -/
theorem tx_status_monotone_witness :
    (⟨"K1ABC", "HELLO", 0, MsgStatus.queued⟩ : TMsg).status
        = MsgStatus.queued ∧
      ∃ a b t,
        msgTrace [⟨5, 1, some "K1ABC  HELLO"⟩]
            ⟨"K1ABC", "HELLO", 0, MsgStatus.queued⟩
          = List.replicate a MsgStatus.queued
            ++ List.replicate b MsgStatus.sending ++ t
        ∧ (t = [] ∨ t = [MsgStatus.sent] ∨ t = [MsgStatus.failed]) :=
  ⟨rfl, tx_status_monotone.1 [⟨5, 1, some "K1ABC  HELLO"⟩]
    ⟨"K1ABC", "HELLO", 0, MsgStatus.queued⟩ rfl⟩

/-- C6: in a cycle whose tx text read is known, a tracked message becomes
FAILED exactly when neither the SENDING nor the SENT transition applies and
the elapsed time since its enqueue timestamp exceeds 30 times the window
duration read from the duration provider this cycle. -/
theorem tx_failure_threshold (c : Cycle) (raw : String) (m : TMsg)
    (hc : c.tx_text = some raw)
    (hm : m.status = MsgStatus.queued ∨ m.status = MsgStatus.sending) :
    (cycleStep c m).1.status = MsgStatus.failed ↔
      ¬(m.destination ++ "  " ++ m.value.trim = processTxText raw
          ∧ m.status = MsgStatus.queued)
        ∧ ¬(m.destination ++ "  " ++ m.value.trim ≠ processTxText raw
          ∧ m.status = MsgStatus.sending)
        ∧ m.timestamp + c.window * 30 < c.now := by
  unfold cycleStep
  rw [hc]
  unfold msgStep
  dsimp only
  split_ifs with h1 h2 h3
  · simp [h1]
  · simp [h2]
  · simp [h1, h2, h3]
  · rcases hm with hq | hsd
    · simp [hq, h3]
    · simp [hsd, h3]

/-- Witness for C6: a long-queued message fails once 30 windows elapse with
its text absent from the tx field. -/
theorem tx_failure_threshold_witness :
    (⟨100, 1, some "X"⟩ : Cycle).tx_text = some "X" ∧
      ((⟨"A", "B", 0, MsgStatus.queued⟩ : TMsg).status = MsgStatus.queued
        ∨ (⟨"A", "B", 0, MsgStatus.queued⟩ : TMsg).status
          = MsgStatus.sending) ∧
      ((cycleStep ⟨100, 1, some "X"⟩ ⟨"A", "B", 0, MsgStatus.queued⟩).1.status
          = MsgStatus.failed ↔
        ¬(("A" : String) ++ "  " ++ ("B" : String).trim = processTxText "X"
            ∧ (⟨"A", "B", 0, MsgStatus.queued⟩ : TMsg).status
              = MsgStatus.queued)
          ∧ ¬(("A" : String) ++ "  " ++ ("B" : String).trim ≠ processTxText "X"
            ∧ (⟨"A", "B", 0, MsgStatus.queued⟩ : TMsg).status
              = MsgStatus.sending)
          ∧ (0 : ℚ) + (1 : ℚ) * 30 < 100) :=
  ⟨rfl, Or.inl rfl,
    tx_failure_threshold ⟨100, 1, some "X"⟩ "X"
      ⟨"A", "B", 0, MsgStatus.queued⟩ rfl (Or.inl rfl)⟩

/-- C10: a tracking cycle in which the tx text read yields None leaves the
tracking queue untouched: no tracked message changes status or is dropped,
even one whose elapsed time already exceeds the failure threshold. -/
theorem tx_monitor_skip_unknown (now w : ℚ) (q : List TMsg) :
    monitorCycle now w none q = q ∧
      ∀ (m : TMsg), cycleStep ⟨now, w, none⟩ m = (m, false) :=
  ⟨rfl, fun m => rfl⟩

/-- Modelled from the spec: the spot record (the spot module is absent
from the sources).  Only the fields taking part in dedup equality are
kept: origin, destination, command, value and the observation timestamp. -/
structure SpotRec where
  origin : Option String
  destination : Option String
  cmd : Option String
  value : Option String
  timestamp : ℚ
  deriving DecidableEq

/-- Modelled from the spec: a spot is built from a qualifying message,
carrying the message fields and the observation time. -/
def mkSpot (now : ℚ) (m : Msg) : SpotRec :=
  ⟨m.origin, m.destination, m.cmd, m.value, now⟩

/-- Modelled from the spec: dedup equality of spots; origin, destination,
command and value match and the observation times lie within 10 seconds of
each other. -/
def spotEq (a b : SpotRec) : Prop :=
  a.origin = b.origin ∧ a.destination = b.destination ∧ a.cmd = b.cmd
    ∧ a.value = b.value ∧ |a.timestamp - b.timestamp| ≤ 10

instance spotEqDec (a b : SpotRec) : Decidable (spotEq a b) := by
  unfold spotEq
  infer_instance

/-- The spot store: the recency buffer used for dedup, the stored spot
list and the maximum number of stored spots (js8call.py lines 84 to 86,
capacity defaults to 1000). -/
structure SpotState where
  recent : List SpotRec
  spots : List SpotRec
  max_spots : ℕ
  deriving DecidableEq

/-- An empty spot store of the given capacity. -/
def SpotState.empty (mx : ℕ) : SpotState := ⟨[], [], mx⟩

/-- JS8Call.spot (js8call.py lines 216 to 239): cull recent spots aged 10
seconds or more, append the new spot to the recency buffer and the store
unless a duplicate sits in the recency buffer, then drop the oldest stored
spot once the store exceeds its capacity. -/
def spotOp (now : ℚ) (m : Msg) (st : SpotState) : SpotState :=
  let recent := st.recent.filter fun s => decide (now - s.timestamp < 10)
  let new_spot := mkSpot now m
  let st1 : SpotState :=
    if recent.any fun s => decide (spotEq new_spot s) then
      ⟨recent, st.spots, st.max_spots⟩
    else ⟨recent ++ [new_spot], st.spots ++ [new_spot], st.max_spots⟩
  if st1.max_spots < st1.spots.length then
    ⟨st1.recent, st1.spots.tail, st1.max_spots⟩
  else st1

/-- A sequence of spot operations, each event pairing an observation time
with the message heard. -/
def spotRun : List (ℚ × Msg) → SpotState → SpotState
  | [], st => st
  | e :: rest, st => spotRun rest (spotOp e.1 e.2 st)

theorem mkSpot_timestamp (now : ℚ) (m : Msg) :
    (mkSpot now m).timestamp = now := rfl

theorem spotOp_into_empty (t : ℚ) (m : Msg) (mx : ℕ) (hmx : 1 ≤ mx) :
    spotOp t m (SpotState.empty mx) = ⟨[mkSpot t m], [mkSpot t m], mx⟩ := by
  unfold spotOp SpotState.empty
  simp only [List.filter_nil, List.any_nil, Bool.false_eq_true, if_false,
    List.nil_append]
  rw [if_neg (by simp only [List.length_singleton]; omega)]

/-- C7: two qualifying messages producing spots with identical origin,
destination, command and value yield exactly one stored spot when the
second is observed within 10 seconds of the first, and two stored spots
when observed 11 or more seconds later. -/
theorem spot_dedup_window (t d : ℚ) (m1 m2 : Msg)
    (ho : m1.origin = m2.origin) (hd : m1.destination = m2.destination)
    (hcm : m1.cmd = m2.cmd) (hv : m1.value = m2.value) (hdn : 0 ≤ d) :
    (d < 10 →
        (spotOp (t + d) m2 (spotOp t m1 (SpotState.empty 1000))).spots
          = [mkSpot t m1]) ∧
      (11 ≤ d →
        (spotOp (t + d) m2 (spotOp t m1 (SpotState.empty 1000))).spots
          = [mkSpot t m1, mkSpot (t + d) m2]) := by
  rw [spotOp_into_empty t m1 1000 (by omega)]
  constructor
  · intro hlt
    have heq : spotEq (mkSpot (t + d) m2) (mkSpot t m1) := by
      refine ⟨ho.symm, hd.symm, hcm.symm, hv.symm, ?_⟩
      show |t + d - t| ≤ 10
      rw [add_sub_cancel_left, abs_of_nonneg hdn]
      linarith
    simp [spotOp, mkSpot_timestamp, add_sub_cancel_left, hlt, heq]
  · intro hge
    have hd10 : ¬ d < 10 := by linarith
    simp [spotOp, mkSpot_timestamp, add_sub_cancel_left, hd10]

/-- Witness for C7: equal spots 5 seconds apart are stored once; equal
spots 12 seconds apart are stored twice. -/
theorem spot_dedup_window_witness :
    ((0 : ℚ) ≤ 5 ∧
      ((5 : ℚ) < 10 →
        (spotOp (0 + 5) (Msg.ofType Message.RX_SPOT)
            (spotOp 0 (Msg.ofType Message.RX_SPOT)
              (SpotState.empty 1000))).spots
          = [mkSpot 0 (Msg.ofType Message.RX_SPOT)])) ∧
      ((0 : ℚ) ≤ 12 ∧
        ((11 : ℚ) ≤ 12 →
          (spotOp (0 + 12) (Msg.ofType Message.RX_SPOT)
              (spotOp 0 (Msg.ofType Message.RX_SPOT)
                (SpotState.empty 1000))).spots
            = [mkSpot 0 (Msg.ofType Message.RX_SPOT),
                mkSpot (0 + 12) (Msg.ofType Message.RX_SPOT)])) :=
  ⟨⟨by norm_num,
    (spot_dedup_window 0 5 (Msg.ofType Message.RX_SPOT)
      (Msg.ofType Message.RX_SPOT) rfl rfl rfl rfl (by norm_num)).1⟩,
   ⟨by norm_num,
    (spot_dedup_window 0 12 (Msg.ofType Message.RX_SPOT)
      (Msg.ofType Message.RX_SPOT) rfl rfl rfl rfl (by norm_num)).2⟩⟩

theorem spotOp_max_spots (now : ℚ) (m : Msg) (st : SpotState) :
    (spotOp now m st).max_spots = st.max_spots := by
  unfold spotOp
  dsimp only
  split_ifs <;> rfl

theorem spotOp_length_le (now : ℚ) (m : Msg) (st : SpotState)
    (h : st.spots.length ≤ st.max_spots) :
    (spotOp now m st).spots.length ≤ st.max_spots := by
  unfold spotOp
  dsimp only
  split_ifs with h1 h2 h3 <;> dsimp only at *
  · rw [List.length_tail]
    omega
  · exact h
  · rw [List.length_tail, List.length_append, List.length_singleton]
    omega
  · rw [List.length_append, List.length_singleton] at h3 ⊢
    omega

theorem spotRun_max_spots :
    ∀ (events : List (ℚ × Msg)) (st : SpotState),
      (spotRun events st).max_spots = st.max_spots := by
  intro events
  induction events with
  | nil => intro st; rfl
  | cons e rest ih =>
    intro st
    rw [spotRun, ih, spotOp_max_spots]

theorem spotRun_length_le :
    ∀ (events : List (ℚ × Msg)) (st : SpotState),
      st.spots.length ≤ st.max_spots →
      (spotRun events st).spots.length ≤ st.max_spots := by
  intro events
  induction events with
  | nil => intro st h; exact h
  | cons e rest ih =>
    intro st h
    rw [spotRun]
    have hmax := spotOp_max_spots e.1 e.2 st
    have := ih (spotOp e.1 e.2 st) (by rw [hmax]; exact spotOp_length_le e.1 e.2 st h)
    rw [hmax] at this
    exact this

theorem spotOp_fresh (now : ℚ) (m : Msg) (st : SpotState)
    (hfresh : ∀ s ∈ st.recent, (mkSpot now m).origin ≠ s.origin) :
    spotOp now m st =
      if st.max_spots < st.spots.length + 1 then
        ⟨(st.recent.filter fun s => decide (now - s.timestamp < 10))
            ++ [mkSpot now m],
          (st.spots ++ [mkSpot now m]).tail, st.max_spots⟩
      else
        ⟨(st.recent.filter fun s => decide (now - s.timestamp < 10))
            ++ [mkSpot now m],
          st.spots ++ [mkSpot now m], st.max_spots⟩ := by
  unfold spotOp
  dsimp only
  have hany : ((st.recent.filter fun s => decide (now - s.timestamp < 10)).any
      fun s => decide (spotEq (mkSpot now m) s)) = false := by
    rw [← Bool.not_eq_true, List.any_eq_true]
    rintro ⟨s, hs, hc⟩
    have hsr := List.mem_of_mem_filter hs
    exact hfresh s hsr (of_decide_eq_true hc).1
  rw [hany]
  simp only [Bool.false_eq_true, if_false]
  rw [List.length_append, List.length_singleton]

theorem drop_tail_append {α : Type} (l r : List α) (hl : l ≠ []) (k : ℕ) :
    (l.tail ++ r).drop k = (l ++ r).drop (k + 1) := by
  cases l with
  | nil => cases hl rfl
  | cons a l => rw [List.cons_append, List.tail_cons, List.drop_succ_cons]

theorem spotRun_distinct_aux :
    ∀ (events : List (ℚ × Msg)) (st : SpotState),
      st.spots.length ≤ st.max_spots →
      (∀ e ∈ events, ∀ s ∈ st.recent, (mkSpot e.1 e.2).origin ≠ s.origin) →
      ((events.map fun e => (mkSpot e.1 e.2).origin).Pairwise
        (fun a b => a ≠ b)) →
      (spotRun events st).spots
        = (st.spots ++ events.map fun e => mkSpot e.1 e.2).drop
            (st.spots.length + events.length - st.max_spots) := by
  intro events
  induction events with
  | nil =>
    intro st hlen _ _
    simp only [spotRun, List.map_nil, List.append_nil, List.length_nil,
      Nat.add_zero]
    rw [Nat.sub_eq_zero_of_le hlen, List.drop_zero]
  | cons e rest ih =>
    intro st hlen hfresh hpair
    have hf0 : ∀ s ∈ st.recent, (mkSpot e.1 e.2).origin ≠ s.origin :=
      hfresh e (List.mem_cons_self e rest)
    have hpc := List.pairwise_cons.mp hpair
    have hfresh2 : ∀ e2 ∈ rest,
        ∀ s ∈ (st.recent.filter fun s => decide (e.1 - s.timestamp < 10))
          ++ [mkSpot e.1 e.2],
          (mkSpot e2.1 e2.2).origin ≠ s.origin := by
      intro e2 he2 s hs
      rcases List.mem_append.mp hs with hs2 | hs2
      · exact hfresh e2 (List.mem_cons_of_mem e he2) s
          (List.mem_of_mem_filter hs2)
      · rw [List.mem_singleton.mp hs2]
        exact fun hor => (hpc.1 (mkSpot e2.1 e2.2).origin
          (List.mem_map_of_mem (fun x => (mkSpot x.1 x.2).origin) he2))
          hor.symm
    rw [spotRun, spotOp_fresh e.1 e.2 st hf0]
    by_cases hc : st.max_spots < st.spots.length + 1
    · rw [if_pos hc]
      have hlen2 : ((st.spots ++ [mkSpot e.1 e.2]).tail).length
          ≤ st.max_spots := by
        rw [List.length_tail, List.length_append, List.length_singleton]
        omega
      have hrun := ih ⟨(st.recent.filter fun s =>
          decide (e.1 - s.timestamp < 10)) ++ [mkSpot e.1 e.2],
          (st.spots ++ [mkSpot e.1 e.2]).tail, st.max_spots⟩
        hlen2 hfresh2 hpc.2
      rw [hrun]
      dsimp only
      have hcount : ((st.spots ++ [mkSpot e.1 e.2]).tail).length
          + rest.length - st.max_spots = rest.length := by
        rw [List.length_tail, List.length_append, List.length_singleton]
        omega
      have hcount2 : st.spots.length + (e :: rest).length - st.max_spots
          = rest.length + 1 := by
        rw [List.length_cons]
        omega
      have hlist : st.spots
            ++ mkSpot e.1 e.2 :: (rest.map fun x => mkSpot x.1 x.2)
          = (st.spots ++ [mkSpot e.1 e.2])
            ++ (rest.map fun x => mkSpot x.1 x.2) := by
        simp
      rw [hcount, hcount2, List.map_cons, hlist]
      exact drop_tail_append (st.spots ++ [mkSpot e.1 e.2])
        (rest.map fun x => mkSpot x.1 x.2) (by simp) rest.length
    · rw [if_neg hc]
      have hlen2 : (st.spots ++ [mkSpot e.1 e.2]).length ≤ st.max_spots := by
        rw [List.length_append, List.length_singleton]
        omega
      have hrun := ih ⟨(st.recent.filter fun s =>
          decide (e.1 - s.timestamp < 10)) ++ [mkSpot e.1 e.2],
          st.spots ++ [mkSpot e.1 e.2], st.max_spots⟩
        hlen2 hfresh2 hpc.2
      rw [hrun]
      dsimp only
      have hcount : (st.spots ++ [mkSpot e.1 e.2]).length
          + rest.length - st.max_spots
          = st.spots.length + (e :: rest).length - st.max_spots := by
        rw [List.length_append, List.length_singleton, List.length_cons]
        omega
      have hlist : st.spots
            ++ mkSpot e.1 e.2 :: (rest.map fun x => mkSpot x.1 x.2)
          = (st.spots ++ [mkSpot e.1 e.2])
            ++ (rest.map fun x => mkSpot x.1 x.2) := by
        simp
      rw [hcount, List.map_cons, hlist]

/-- C8: the spot store never exceeds its capacity after any sequence of
spot operations; and for spots with pairwise distinct origins inserted into
an empty store, the store retains exactly the newest capacity-many spots in
order, the oldest entries dropped oldest first. -/
theorem spot_store_capacity :
    (∀ (events : List (ℚ × Msg)) (st : SpotState),
        st.spots.length ≤ st.max_spots →
        (spotRun events st).spots.length ≤ st.max_spots) ∧
      (∀ (mx : ℕ) (events : List (ℚ × Msg)),
        ((events.map fun e => (mkSpot e.1 e.2).origin).Pairwise
          (fun a b => a ≠ b)) →
        (spotRun events (SpotState.empty mx)).spots
          = (events.map fun e => mkSpot e.1 e.2).drop (events.length - mx)) := by
  constructor
  · exact spotRun_length_le
  · intro mx events hp
    have h := spotRun_distinct_aux events (SpotState.empty mx)
      (by simp [SpotState.empty]) (by intro e he s hs; cases hs) hp
    simpa [SpotState.empty] using h

/-- A test message heard from the given origin station. -/
def wMsg (o : String) : Msg :=
  { Msg.ofType Message.RX_SPOT with origin := some o }

/-- Witness for C8: four distinct spots into a store of capacity two leave
the newest two, oldest dropped first. -/
theorem spot_store_capacity_witness :
    ((SpotState.empty 2).spots.length ≤ (SpotState.empty 2).max_spots ∧
      (spotRun [(0, wMsg "A"), (1, wMsg "B"), (2, wMsg "C"), (3, wMsg "D")]
        (SpotState.empty 2)).spots.length ≤ (SpotState.empty 2).max_spots) ∧
      ((([(0, wMsg "A"), (1, wMsg "B"), (2, wMsg "C"), (3, wMsg "D")].map
          fun e => (mkSpot e.1 e.2).origin).Pairwise (fun a b => a ≠ b)) ∧
        (spotRun [(0, wMsg "A"), (1, wMsg "B"), (2, wMsg "C"), (3, wMsg "D")]
            (SpotState.empty 2)).spots
          = ([(0, wMsg "A"), (1, wMsg "B"), (2, wMsg "C"), (3, wMsg "D")].map
              fun e => mkSpot e.1 e.2).drop
              ([(0, wMsg "A"), (1, wMsg "B"), (2, wMsg "C"),
                (3, wMsg "D")].length - 2)) :=
  ⟨⟨by decide,
    spot_store_capacity.1
      [(0, wMsg "A"), (1, wMsg "B"), (2, wMsg "C"), (3, wMsg "D")]
      (SpotState.empty 2) (by decide)⟩,
   ⟨by decide,
    spot_store_capacity.2 2
      [(0, wMsg "A"), (1, wMsg "B"), (2, wMsg "C"), (3, wMsg "D")]
      (by decide)⟩⟩

/-- The window predictor state (windowmonitor.py lines 61 to 66): the last
tx frame timestamp, the last rx message timestamp and the predicted next
window transition timestamp, each zero while unknown. -/
structure WinState where
  last_tx_frame : ℚ
  last_rx_msg : ℚ
  next_window : ℚ
  deriving DecidableEq

/-- Python round to three decimal places on rational time values
(windowmonitor.py line 155).  At half-millisecond ties Python rounds to
even while this model rounds upward; every value this development evaluates
it at is an exact millisecond, where the two agree. -/
def round3 (q : ℚ) : ℚ := ((round (q * 1000) : ℤ) : ℚ) / 1000

/-- WindowMonitor.process_tx_frame (windowmonitor.py lines 101 to 116):
record the tx frame timestamp, predict the next transition one window
duration later, and stop using rx messages once a tx frame has been seen.
window is the duration returned by the duration provider during the call. -/
def process_tx_frame (ts window : ℚ) (st : WinState) : WinState :=
  let st1 : WinState := ⟨ts, st.last_rx_msg, ts + window⟩
  if st1.last_rx_msg ≠ 0 then ⟨st1.last_tx_frame, 0, st1.next_window⟩
  else st1

/-- WindowMonitor.next_transition_timestamp (windowmonitor.py lines 139 to
155) with fallback none: none while no transition is known, otherwise the
prediction advanced count windows and rounded to three decimal places.
window is the duration read from the duration provider at query time. -/
def next_transition_timestamp (window : ℚ) (count : ℕ) (st : WinState) :
    Option ℚ :=
  if st.next_window = 0 then none
  else some (round3 (st.next_window + window * (count : ℚ)))

theorem process_tx_frame_next (ts w : ℚ) (st : WinState) :
    (process_tx_frame ts w st).next_window = ts + w := by
  unfold process_tx_frame
  dsimp only
  split_ifs <;> rfl

theorem round3_eq_self (q : ℚ) (a : ℤ) (h : q * 1000 = (a : ℚ)) :
    round3 q = q := by
  unfold round3
  rw [h, round_intCast, ← h]
  exact mul_div_cancel_right₀ q (by norm_num)

/-- C9: a locally originated tx frame at timestamp T with window duration W
makes the predicted next transition with count 0 equal T plus W, with count
N equal T plus W plus N windows, and a subsequent tx frame at T plus W
advances the prediction to T plus two windows.  T and W are positive
millisecond-aligned times so the three-decimal rounding is exact. -/
theorem window_prediction (st : WinState) (T W : ℚ) (N : ℕ)
    (hT : 0 < T) (hW : 0 < W)
    (hTi : ∃ a : ℤ, T * 1000 = (a : ℚ))
    (hWi : ∃ b : ℤ, W * 1000 = (b : ℚ)) :
    next_transition_timestamp W 0 (process_tx_frame T W st) = some (T + W)
      ∧ next_transition_timestamp W N (process_tx_frame T W st)
        = some (T + W + W * (N : ℚ))
      ∧ next_transition_timestamp W 0
          (process_tx_frame (T + W) W (process_tx_frame T W st))
        = some (T + 2 * W) := by
  obtain ⟨a, ha⟩ := hTi
  obtain ⟨b, hb⟩ := hWi
  have hTW : (0 : ℚ) < T + W := by linarith
  have hTWW : (0 : ℚ) < T + W + W := by linarith
  refine ⟨?_, ?_, ?_⟩
  · unfold next_transition_timestamp
    rw [process_tx_frame_next, if_neg (ne_of_gt hTW)]
    rw [Nat.cast_zero, mul_zero, add_zero]
    rw [round3_eq_self (T + W) (a + b)
      (by push_cast; rw [add_mul, ha, hb])]
  · unfold next_transition_timestamp
    rw [process_tx_frame_next, if_neg (ne_of_gt hTW)]
    rw [round3_eq_self (T + W + W * (N : ℚ)) (a + b + b * (N : ℤ))
      (by push_cast; rw [← ha, ← hb]; ring)]
  · unfold next_transition_timestamp
    rw [process_tx_frame_next, if_neg (ne_of_gt hTWW)]
    rw [Nat.cast_zero, mul_zero, add_zero]
    rw [round3_eq_self (T + W + W) (a + b + b)
      (by push_cast; rw [← ha, ← hb]; ring)]
    rw [add_assoc, ← two_mul]

/-- Witness for C9: a tx frame at 100 seconds with a 15 second window
predicts transitions at 115, 145 with count 2, and 130 after a second tx
frame at 115. -/
theorem window_prediction_witness :
    ((0 : ℚ) < 100 ∧ (0 : ℚ) < 15
      ∧ (∃ a : ℤ, (100 : ℚ) * 1000 = (a : ℚ))
      ∧ (∃ b : ℤ, (15 : ℚ) * 1000 = (b : ℚ))) ∧
      (next_transition_timestamp 15 0 (process_tx_frame 100 15 ⟨0, 0, 0⟩)
          = some (100 + 15)
        ∧ next_transition_timestamp 15 2 (process_tx_frame 100 15 ⟨0, 0, 0⟩)
          = some (100 + 15 + 15 * ((2 : ℕ) : ℚ))
        ∧ next_transition_timestamp 15 0
            (process_tx_frame (100 + 15) 15 (process_tx_frame 100 15 ⟨0, 0, 0⟩))
          = some (100 + 2 * 15)) :=
  ⟨⟨by norm_num, by norm_num, ⟨100000, by norm_num⟩, ⟨15000, by norm_num⟩⟩,
    window_prediction ⟨0, 0, 0⟩ 100 15 2 (by norm_num) (by norm_num)
      ⟨100000, by norm_num⟩ ⟨15000, by norm_num⟩⟩

end Pyjs8call
